import Mathlib

/-!
Verification development for the OwlDB document database
(github.com/ml575/database-project).

The development shallowly embeds the parts of the source that the checked
properties are about:

* the `skipList` package (the concurrent ordered index), embedded as a
  sequential functional model: the state is the level-0 chain of nodes that
  sits strictly between the `head` and `tail` sentinels, kept in ascending
  key order, and every operation passes this state explicitly.  Per-node
  locks, the CAS-free atomic pointer loads and the retry loops of the source
  collapse in the sequential model: a retry that re-reads an unchanged state
  would repeat forever, which the model makes explicit by returning `none`
  (divergence) in exactly those situations;
* the `document` package (metadata bookkeeping);
* the `patchvisitors` package (patch application via the visitor pattern)
  together with the `jsondata` collaborator, whose JSON values are the usual
  tagged tree (the collaborator is skeleton code external to the repository;
  its `Accept` merely dispatches on the tag, which is what the embedding
  does);
* the `handler` package (path parsing, the deepest-prefix walker, and the
  GET / POST / PATCH dispatch logic), with the external collaborators
  (body I/O, `encoding/json`, schema validation, the HTTP plumbing)
  represented as explicit parameters;
* the subscription fan-out of the `handler` package, where the readiness
  semantics of Go's two-case `select` over an unbuffered channel is made
  explicit.

Go `time.Time` / `UnixMilli` values are modelled as naturals / integers,
Go's `float64` random draw in `randomLevel` is abstracted by the boolean
outcome sequence `draw n = (random > 0.5^(n+1))` of its comparisons, and
byte strings are modelled by `String`.
-/

namespace skipList

/-- One element of the skip list.  The source's `node` additionally holds a
per-node mutex and an array `next` of forward pointers; in the sequential
model the chain itself plays the role of the level-0 pointers and the lock
is never contended, so only the logical fields remain. -/
structure SNode (K V : Type) where
  key : K
  value : V
  topLevel : ℤ
  marked : Bool
  fullyLinked : Bool
  time : ℕ
deriving Repr, DecidableEq

/-- Length of the `head.next` array built by `New`: the head points to the
tail at levels 0..4, so the array has five slots. -/
def headNextLen : ℕ := 5

/-- Loop of `randomLevel`: `n` starts at 0; while `n < upTo`, if the draw at
`n` fires (`random > 0.5^(n+1)` in the source) return `n`, else increment;
when the guard fails return `upTo`.  `fuel` bounds the iteration count; it is
instantiated with `upTo.toNat`, which the loop can never exceed, and when it
reaches 0 the guard `n < upTo` has just failed, so returning `upTo` agrees
with the source. -/
def randomLevelGo (draw : ℕ → Bool) (upTo : ℤ) : ℕ → ℕ → ℤ
  | _, 0 => upTo
  | n, fuel + 1 =>
    if (n : ℤ) < upTo then
      if draw n then (n : ℤ) else randomLevelGo draw upTo (n + 1) fuel
    else upTo

/-- Model of `randomLevel(upTo)`.  The source draws `random := rand.Float64()`
once and then compares it against `math.Pow(0.5, float64(n+1))` for growing
`n`; the model receives the outcome sequence of those comparisons as `draw`. -/
def randomLevel (draw : ℕ → Bool) (upTo : ℤ) : ℤ :=
  randomLevelGo draw upTo 0 upTo.toNat

/-- Sequential content of the source's `find`: the key is in the structure
iff a node with that key is on the level-0 chain.  (`find` reports the
highest level the key appears on; a linked node appears on all levels from 0
up to its `topLevel`, so presence at any level is presence on the chain.) -/
def findNode [DecidableEq K] (s : List (SNode K V)) (key : K) : Option (SNode K V) :=
  s.find? (fun nd => decide (nd.key = key))

/-- Model of `Find`: found nodes that are `marked` or not yet `fullyLinked`
are reported as absent, mirroring lines 725-741 of the skip list source. -/
def Find [DecidableEq K] (s : List (SNode K V)) (key : K) : Option V :=
  match findNode s key with
  | none => none
  | some foundNode =>
    if foundNode.marked ∨ ¬ foundNode.fullyLinked then none else some foundNode.value

/-- Refresh the last-modified time of the node carrying `key` (the
assignment `found.time = time.Now()` performed by `Upsert` on an existing
node). -/
def updateTime [DecidableEq K] (s : List (SNode K V)) (key : K) (now : ℕ) : List (SNode K V) :=
  s.map (fun nd => if nd.key = key then { nd with time := now } else nd)

/-- Go's `<` on strings (`cmp.Ordered` for the `string` instantiations the
repository uses everywhere): bytewise lexicographic comparison, which on
UTF-8 encodings coincides with lexicographic comparison of the code points.
(The built-in string order of the proof assistant is not used because it
does not evaluate inside the kernel.) -/
def goCharsLt : List Char → List Char → Bool
  | [], [] => false
  | [], _ :: _ => true
  | _ :: _, [] => false
  | a :: as', b :: bs' =>
    if a < b then true else if b < a then false else goCharsLt as' bs'

/-- Go's `a < b` on strings. -/
def goStrLt (a b : String) : Bool :=
  goCharsLt a.toList b.toList

/-- Go's `a <= b` on strings (total order: not `b < a`). -/
def goStrLe (a b : String) : Bool :=
  !(goStrLt b a)

/-- Link a fresh node into the sorted level-0 chain between its predecessor
and successor, as the pointer stores of `Upsert`'s insert branch do. -/
def insertNode (nd : SNode String V) : List (SNode String V) → List (SNode String V)
  | [] => [nd]
  | x :: rest => if goStrLt nd.key x.key then nd :: x :: rest else x :: insertNode nd rest

/-- Model of `Upsert(key, check)` (skip list source lines 752-865).
`draw` feeds `randomLevel`, `now` is the current time, `defaultV` is the zero
value of `V` (the `var empty V` of the source).

Existing-key branch: the source waits for `fullyLinked`, locks the node,
sets `found.time = time.Now()`, calls `check(key, found.value, true)` and
returns `(toPut, err)`.  The assignment `found.value = toPut` is commented
out in the source (lines 777-779), so the stored value is left unchanged and
only the time field is written; the model mirrors that faithfully.  A marked
node or a node whose insert never completes makes the source retry / spin
forever, which the sequential model reports as `none`.

Absent-key branch: `check(key, empty, false)` is consulted first; on error
the state is untouched and `(empty, err)` is returned; otherwise a fresh
fully-linked node carrying the returned value and top level
`randomLevel(len(head.next)-2)` is linked in. -/
def Upsert (s : List (SNode String V)) (key : String)
    (check : String → V → Bool → V × Option String) (draw : ℕ → Bool) (now : ℕ)
    (defaultV : V) :
    Option ((V × Option String) × List (SNode String V)) :=
  let topLevel := randomLevel draw ((headNextLen : ℤ) - 2)
  match findNode s key with
  | some found =>
    if found.marked then
      none
    else if ¬ found.fullyLinked then
      none
    else
      let s2 := updateTime s key now
      let r := check key found.value true
      some ((r.1, r.2), s2)
  | none =>
    let r := check key defaultV false
    match r.2 with
    | some e => some ((defaultV, some e), s)
    | none =>
      some ((r.1, none),
        insertNode
          { key := key, value := r.1, topLevel := topLevel, marked := false,
            fullyLinked := true, time := now } s)

/-- Context model for `Query`: whether the `context.Context` is nil, its
deadline (if `ctx.Deadline()` reports one) in the same clock as `now`, and
whether `ctx.Err()` is non-nil (the cancellation signal has fired or the
deadline has been exceeded). -/
structure QueryCtx where
  isNil : Bool
  deadline : Option ℕ
  errSet : Bool
deriving Repr, DecidableEq

/-- The `for` guard of `Query` (line 878 of the skip list source):
`ctxNil || !ok || !time.Now().After(giveUpTime) || ctx.Err() == nil`,
where `ok` reports whether a deadline is present (it stays `false` for a nil
context because `ctx.Deadline()` is never called). -/
def queryContinue (ctx : QueryCtx) (now : ℕ) : Bool :=
  let ok := !ctx.isNil && ctx.deadline.isSome
  let giveUpTime := match ctx.deadline with | some d => d | none => 0
  ctx.isNil || !ok || !(decide (giveUpTime < now)) || !ctx.errSet

/-- The node sequence visited by one scan of `Query`: walk the level-0 chain
from the head and stop at the tail or at the first node outside
`start ≤ key ≤ end` (both scans use this same guard). -/
def queryWalk (start e : String) : List (SNode String V) → List (SNode String V)
  | [] => []
  | nd :: rest =>
    if goStrLe start nd.key && goStrLe nd.key e then nd :: queryWalk start e rest else []

/-- Error message produced when the copier refuses a value
(`errors.New` of a quoted string in the source, so the quotes are part of
the message). -/
def copyErrMsg : String := "\x22couldn\x27t copy value in query\x22"

/-- Error message produced when the `for` guard of `Query` fails (again a
quoted string, with the source's spelling). -/
def deadlineMsg : String := "\x22deadline past durying query or context done\x22"

/-- Invoke the copier on the values collected by the first scan; a `nil`
copy aborts the whole query with `copyErrMsg`. -/
def copyValues (copier : V → Option V) : List (SNode K V) → Except String (List V)
  | [] => .ok []
  | nd :: rest =>
    match copier nd.value with
    | none => .error copyErrMsg
    | some c =>
      match copyValues copier rest with
      | .error e => .error e
      | .ok cs => .ok (c :: cs)

/-- The second scan of `Query`: compare the freshly walked chain against the
nodes `first_iter` kept by the first scan, position by position, using node
identity (`equals` compares key and time) and the `marked` flag; the loop
stops once either sequence is exhausted with `allOk` still true. -/
def querySecond [DecidableEq K] : List (SNode K V) → List (SNode K V) → Bool
  | _, [] => true
  | [], _ :: _ => true
  | c :: cs, f :: fs =>
    if (f.key = c.key ∧ f.time = c.time) ∧ ¬ c.marked then querySecond cs fs else false

/-- Model of `Query(ctx, start, end, copier)` (skip list source lines
870-934).  Each pass of the retry loop first evaluates the guard
`queryContinue`; on failure the deadline error is returned.  Otherwise the
two scans run; over a sequentially unchanging state a rescan yields the very
same chain, so a matching pair returns on the first pass and a mismatching
pair (possible only when a marked node sits inside the range) would mismatch
on every retry, which the model reports as `none` (divergence). -/
def Query (ctx : QueryCtx) (now : ℕ) (s : List (SNode String V)) (start e : String)
    (copier : V → Option V) : Option (Except String (List String × List V)) :=
  if queryContinue ctx now then
    match copyValues copier ((queryWalk start e s).filter (fun nd => !nd.marked)) with
    | .error msg => some (.error msg)
    | .ok vs =>
      if querySecond (queryWalk start e s) ((queryWalk start e s).filter (fun nd => !nd.marked)) then
        some (.ok (((queryWalk start e s).filter (fun nd => !nd.marked)).map (fun nd => nd.key), vs))
      else
        none
  else
    some (.error deadlineMsg)

end skipList

namespace jsondata

/-- JSON values of the `jsondata` collaborator (skeleton code, external to
the repository): the tagged variant over null, bool, float64, string, slice
and map.  Objects are association lists with pairwise distinct keys (the Go
representation is `map[string]JSONValue`). -/
inductive JSONValue where
  | null
  | boolean (b : Bool)
  | number (q : ℚ)
  | str (s : String)
  | arr (s : List JSONValue)
  | obj (m : List (String × JSONValue))
deriving Repr

mutual

/-- Structural equality of JSON values, the collaborator's `Equal` used by
`doArrayAdd` / `doArrayRemove`. -/
def JSONValue.Equal : JSONValue → JSONValue → Bool
  | .null, .null => true
  | .boolean a, .boolean b => a == b
  | .number a, .number b => a == b
  | .str a, .str b => a == b
  | .arr a, .arr b => JSONValue.equalList a b
  | .obj a, .obj b => JSONValue.equalObj a b
  | _, _ => false

/-- Elementwise `Equal` on JSON slices. -/
def JSONValue.equalList : List JSONValue → List JSONValue → Bool
  | [], [] => true
  | a :: as', b :: bs' => JSONValue.Equal a b && JSONValue.equalList as' bs'
  | _, _ => false

/-- Entrywise `Equal` on JSON objects (keys and values in order). -/
def JSONValue.equalObj : List (String × JSONValue) → List (String × JSONValue) → Bool
  | [], [] => true
  | (ka, va) :: as', (kb, vb) :: bs' =>
    ka == kb && JSONValue.Equal va vb && JSONValue.equalObj as' bs'
  | _, _ => false

end

end jsondata

namespace document

/-- Document metadata (document.go lines 35-40): creation and last
modification, as millisecond timestamps plus principal names. -/
structure Metadata where
  createdAt : ℤ
  createdBy : String
  lastModifiedAt : ℤ
  lastModifiedBy : String
deriving Repr, DecidableEq

/-- A document (document.go lines 26-31): immutable name, the opaque byte
payload, and the metadata.  The payload bytes always hold the most recent
validated JSON encoding, so the model carries the parsed
`jsondata.JSONValue` and treats `json.Marshal`/`json.Unmarshal` (external
collaborator) as the identity on this representation; two documents have
equal bytes iff they have equal values here.  The `colSet` sub-collection
index is not consulted by any checked property and is omitted. -/
structure Document where
  name : String
  data : jsondata.JSONValue
  metadata : Metadata
deriving Repr

/-- Model of `NewDocument` (document.go lines 51-61): both creation and
last-modification stamps are set to the current time and creator. -/
def NewDocument (name : String) (data : jsondata.JSONValue) (creator : String) (now : ℤ) :
    Document :=
  { name := name, data := data,
    metadata :=
      { createdAt := now, createdBy := creator,
        lastModifiedAt := now, lastModifiedBy := creator } }

/-- Model of `Document.ModifyMetadata` (document.go lines 65-71): set
`lastModifiedBy` to the modifier and `lastModifiedAt` to the current time;
nothing else is touched. -/
def ModifyMetadata (d : Document) (modifyer : String) (now : ℤ) : Document :=
  { d with metadata :=
      { d.metadata with lastModifiedBy := modifyer, lastModifiedAt := now } }

/-- Model of `Document.ReplaceData` (document.go lines 79-82). -/
def ReplaceData (d : Document) (data : jsondata.JSONValue) : Document :=
  { d with data := data }

end document

namespace patchvisitors

open jsondata

/-- Structural model of Go's `strings.Split(s, "/")` (which never reduces in
the kernel when taken from `String`): accumulate the current segment and cut
at every separator; splitting any string yields at least one segment. -/
def splitOnCharGo (sep : Char) : List Char → List Char → List String
  | [], acc => [String.mk acc.reverse]
  | c :: rest, acc =>
    if c = sep then String.mk acc.reverse :: splitOnCharGo sep rest []
    else splitOnCharGo sep rest (c :: acc)

/-- Go's `strings.Split(s, string(sep))` for a one-character separator. -/
def goSplit (s : String) (sep : Char) : List String :=
  splitOnCharGo sep s.toList []

/-- Go's `strings.Join(xs, "/")`. -/
def goJoin : List String → String
  | [] => ""
  | [x] => x
  | x :: rest => x ++ "/" ++ goJoin rest

/-- Left-to-right, non-overlapping replacement of `~1` by `/`: the first
half of the JSON-Pointer unescape `strings.ReplaceAll(s, "~1", "/")`. -/
def replaceTilde1 : List Char → List Char
  | '~' :: '1' :: rest => '/' :: replaceTilde1 rest
  | c :: rest => c :: replaceTilde1 rest
  | [] => []

/-- Left-to-right, non-overlapping replacement of `~0` by `~`: the second
half of the unescape, `strings.ReplaceAll(s, "~0", "~")`. -/
def replaceTilde0 : List Char → List Char
  | '~' :: '0' :: rest => '~' :: replaceTilde0 rest
  | c :: rest => c :: replaceTilde0 rest
  | [] => []

/-- The JSON-Pointer unescape applied to one path segment: `~1` to `/`
first, then `~0` to `~`, exactly in the source's order. -/
def unescapeSegment (s : String) : String :=
  String.mk (replaceTilde0 (replaceTilde1 s.toList))

/-- Go's `strconv.Atoi`: an optional sign followed by at least one decimal
digit (the bit-width range check of the source cannot fire on the inputs the
patch code feeds it and is left out). -/
def goAtoi (s : String) : Option ℤ :=
  match s.toList with
  | [] => none
  | c :: rest =>
    let signed : ℤ × List Char :=
      if c = '-' then (-1, rest) else if c = '+' then (1, rest) else (1, c :: rest)
    if signed.2 = [] ∨ ¬ signed.2.all Char.isDigit then none
    else some (signed.1 * signed.2.foldl (fun acc d => acc * 10 + ((d.toNat : ℤ) - ('0'.toNat : ℤ))) 0)

/-- The `docVisitor` (patchvisitors source lines 234-244): the operation
name, the remaining JSON-Pointer path, the operation's value and the flag
marking that we are still at the start of the original path. -/
structure DocVisitor where
  op : String
  path : String
  value : JSONValue
  first : Bool
deriving Repr

/-- Model of `NewDocVisitor`. -/
def NewDocVisitor (op : String) (path : String) (value : JSONValue) : DocVisitor :=
  { op := op, path := path, value := value, first := true }

/-- Model of `handlePathStart` (patchvisitors source lines 436-456): split
the pending path on `/` (an empty non-initial path splits to no segments); a
starting path must begin with `/`, and at the start the leading empty
segment is dropped and `first` is cleared. -/
def handlePathStart (v : DocVisitor) : Except String (DocVisitor × List String) :=
  let splitPaths := if v.first || v.path ≠ "" then goSplit v.path '/' else []
  if v.first ∧ splitPaths.headD "" ≠ "" then
    .error "error applying patches: path should always start with /"
  else if v.first then
    .ok ({ v with first := false }, splitPaths.drop 1)
  else
    .ok (v, splitPaths)

/-- Model of `doObjectAdd` (patchvisitors source lines 600-617): unescape
the final segment and add the key-value pair iff the key is absent. -/
def doObjectAdd (v : DocVisitor) (m : List (String × JSONValue)) (splitPaths : List String) :
    Except String JSONValue :=
  let key := unescapeSegment (splitPaths.headD "")
  if (m.lookup key).isSome then .ok (.obj m)
  else .ok (.obj (m ++ [(key, v.value)]))

/-- Model of `doArrayAdd` (patchvisitors source lines 539-564): append the
value unless an `Equal` element is already present. -/
def doArrayAdd (v : DocVisitor) (s : List JSONValue) : Except String JSONValue :=
  if s.any (fun x => x.Equal v.value) then .ok (.arr s)
  else .ok (.arr (s ++ [v.value]))

/-- Removal of the first `Equal` element, the loop of `doArrayRemove`. -/
def removeFirstEqual (value : JSONValue) : List JSONValue → List JSONValue
  | [] => []
  | x :: rest => if x.Equal value then rest else x :: removeFirstEqual value rest

/-- Model of `doArrayRemove` (patchvisitors source lines 569-594): drop the
first `Equal` element if any. -/
def doArrayRemove (v : DocVisitor) (s : List JSONValue) : Except String JSONValue :=
  .ok (.arr (removeFirstEqual v.value s))

mutual

/-- Model of `jsondata.Accept` specialised to the `docVisitor`: dispatch on the value
kind to the visitor's `Map` / `Slice` / scalar methods (patchvisitors source
lines 255-428); every scalar along the path is an error. -/
def DocVisitor.accept (v : DocVisitor) : JSONValue → Except String JSONValue
  | .obj m => DocVisitor.Map v m
  | .arr s => DocVisitor.Slice v s
  | .boolean _ => .error "error applying patches: found bool along path"
  | .number _ => .error "error applying patches: found float64 along path"
  | .str _ => .error "error applying patches: found string along path"
  | .null => .error "error applying patches: found null along path"
termination_by j => (sizeOf j, 3)

/-- Model of `DocVisitor.Map` (patchvisitors source lines 255-307). -/
def DocVisitor.Map (v : DocVisitor) (m : List (String × JSONValue)) : Except String JSONValue :=
  match handlePathStart v with
  | .error e => .error e
  | .ok (v, splitPaths) =>
    if splitPaths.length = 0 then
      .error "error applying patches: path ends in map"
    else if v.op = "ArrayAdd" ∨ v.op = "ArrayRemove" then
      mapAcceptNextPath v m splitPaths
    else if v.op = "ObjectAdd" then
      if splitPaths.length = 1 then doObjectAdd v m splitPaths
      else mapAcceptNextPath v m splitPaths
    else
      .error "error applying patches: invalid patch operation"
termination_by (sizeOf m, 2)

/-- Model of `DocVisitor.Slice` (patchvisitors source lines 318-392). -/
def DocVisitor.Slice (v : DocVisitor) (s : List JSONValue) : Except String JSONValue :=
  match handlePathStart v with
  | .error e => .error e
  | .ok (v, splitPaths) =>
    if v.op = "ArrayAdd" then
      if splitPaths.length = 0 then doArrayAdd v s
      else sliceAcceptNextPath v s splitPaths
    else if v.op = "ArrayRemove" then
      if splitPaths.length = 0 then doArrayRemove v s
      else sliceAcceptNextPath v s splitPaths
    else if v.op = "ObjectAdd" then
      if splitPaths.length = 0 then
        .error "error applying patches: ObjectAdd path ends in slice"
      else sliceAcceptNextPath v s splitPaths
    else
      .error "error applying patches: invalid patch operation"
termination_by (sizeOf s, 2)

/-- Model of `mapAcceptNextPath` (patchvisitors source lines 463-495):
unescape the next segment, recurse into the matching entry with the rest of
the path, and rebuild the surrounding object. -/
def mapAcceptNextPath (v : DocVisitor) (m : List (String × JSONValue))
    (splitPaths : List String) : Except String JSONValue :=
  let nextPath := unescapeSegment (splitPaths.headD "")
  let v2 := { v with path := goJoin (splitPaths.drop 1) }
  match mapSearch v2 nextPath m with
  | .error e => .error e
  | .ok m2 => .ok (.obj m2)
termination_by (sizeOf m, 1)

/-- The `for key, val := range m` loop of `mapAcceptNextPath`: the Go map
has pairwise distinct keys, so visiting entries in association-list order
finds the same unique match; an exhausted loop means the key is missing. -/
def mapSearch (v : DocVisitor) (key : String) :
    List (String × JSONValue) → Except String (List (String × JSONValue))
  | [] => .error "key not found in map"
  | (k, val) :: rest =>
    if k = key then
      match DocVisitor.accept v val with
      | .error e => .error e
      | .ok r => .ok ((k, r) :: rest)
    else
      match mapSearch v key rest with
      | .error e => .error e
      | .ok rest2 => .ok ((k, val) :: rest2)
termination_by l => (sizeOf l, 0)

/-- Model of `sliceAcceptNextPath` (patchvisitors source lines 502-534): the
next segment must parse as a decimal index smaller than the length (a
negative index passes the source's only bounds check and makes the Go
runtime panic on `s[idx]`; the model records that as a distinct error, which
no checked property reaches). -/
def sliceAcceptNextPath (v : DocVisitor) (s : List JSONValue)
    (splitPaths : List String) : Except String JSONValue :=
  match goAtoi (splitPaths.headD "") with
  | none => .error "error applying patches: invalid index"
  | some idx =>
    if (s.length : ℤ) ≤ idx then
      .error "error applying patches: index exceeds array length"
    else if idx < 0 then
      .error "panic: runtime error: index out of range"
    else
      let v2 := { v with path := goJoin (splitPaths.drop 1) }
      match sliceUpdate v2 idx.toNat s with
      | .error e => .error e
      | .ok s2 => .ok (.arr s2)
termination_by (sizeOf s, 1)

/-- Recurse into position `idx` of the slice and rebuild it
(`s[idx] = acceptRes` in the source). -/
def sliceUpdate (v : DocVisitor) (idx : ℕ) : List JSONValue → Except String (List JSONValue)
  | [] => .error "panic: runtime error: index out of range"
  | x :: rest =>
    match idx with
    | 0 =>
      match DocVisitor.accept v x with
      | .error e => .error e
      | .ok r => .ok (r :: rest)
    | idx2 + 1 =>
      match sliceUpdate v idx2 rest with
      | .error e => .error e
      | .ok rest2 => .ok (x :: rest2)
termination_by l => (sizeOf l, 0)

end

/-- A patch operation record (patchvisitors source lines 60-64). -/
structure PatchOp where
  op : String
  path : String
  value : JSONValue
deriving Repr

/-- Model of `PatchVisitor.Map` (patchvisitors source lines 121-168): the
`op`, `path` and `value` keys must all be present (checked in that order),
and the `op` / `path` values must be strings.  The Go `for ... range m` that
extracts the three values visits the map in arbitrary order; when several
properties are malformed the reported message may be either one, and the
model fixes the op-then-path order, which agrees with the source on every
map with at most one malformed property. -/
def PatchVisitor.Map (m : List (String × JSONValue)) : Except String PatchOp :=
  match m.lookup "op", m.lookup "path", m.lookup "value" with
  | none, _, _ => .error "patch operation missing \x22op\x22 property"
  | _, none, _ => .error "patch operation missing \x22path\x22 property"
  | _, _, none => .error "patch operation missing \x22value\x22 property"
  | some (.str op), some (.str path), some value => .ok { op := op, path := path, value := value }
  | some (.str _), some _, some _ => .error "value of \x22path\x22 property not string"
  | some _, some _, some _ => .error "value of \x22op\x22 property not string"

/-- Model of `jsondata.Accept` specialised to the `PatchVisitor`: a patch operation
must be a JSON map (patchvisitors source lines 172-224). -/
def PatchVisitor.accept : JSONValue → Except String PatchOp
  | .obj m => PatchVisitor.Map m
  | .arr _ => .error "patch operation should not come as slice"
  | .boolean _ => .error "patch operation should not come as bool"
  | .number _ => .error "patch operation should not come as float64"
  | .str _ => .error "patch operation should not come as string"
  | .null => .error "patch operation should not come as null"

/-- Model of `jsondata.Accept` specialised to the `PatchOpListVisitor`: the request
body must be a JSON array of operations (patchvisitors source lines 27-54). -/
def PatchOpListVisitor.accept : JSONValue → Except String (List JSONValue)
  | .arr s => .ok s
  | .obj _ => .error "patch operations should not come as map"
  | .boolean _ => .error "patch operations should not come as bool"
  | .number _ => .error "patch operations should not come as float64"
  | .str _ => .error "patch operations should not come as string"
  | .null => .error "patch operations should not come as null"

end patchvisitors

namespace handler

open jsondata

/-!
Hierarchy node types for the path walker.  A collection holds an ordered
index of documents; a document holds an ordered index of sub-collections.
The walker (`lastRealItem`) consults the indexes only through `Find`, whose
sequential reading on a well-formed index is key lookup, so the indexes
appear as association lists keyed by name; the payload/metadata of documents
and the subscriber sets of collections are not consulted by the walker and
are carried by the separate `document` / subscriber models.
-/

mutual

/-- A collection: name plus the ordered index of its documents. -/
inductive HCollection where
  | mk (name : String) (docs : List (String × HDocument))

/-- A document: name plus the ordered index of its sub-collections. -/
inductive HDocument where
  | mk (name : String) (cols : List (String × HCollection))

end

/-- Name of a collection. -/
def HCollection.name : HCollection → String
  | .mk n _ => n

/-- The document index of a collection. -/
def HCollection.docs : HCollection → List (String × HDocument)
  | .mk _ d => d

/-- Name of a document. -/
def HDocument.name : HDocument → String
  | .mk n _ => n

/-- Model of `Collection.FindDocument`: `Find` on the document index. -/
def HCollection.findDocument (c : HCollection) (name : String) : Option HDocument :=
  c.docs.lookup name

/-- Model of `Document.FindCollection`: `Find` on the sub-collection index. -/
def HDocument.findCollection (d : HDocument) (name : String) : Option HCollection :=
  match d with
  | .mk _ cols => cols.lookup name

/-- Model of `frontPop` (handler source lines 392-398). -/
def frontPop (pathElements : List String) : String × List String × Bool :=
  match pathElements with
  | [] => ("", [], false)
  | x :: rest => (x, rest, true)

/-- Model of `parseUrl` (handler source lines 365-388): split on `/`, demand
a leading empty segment and then the literal `v1`, and at least one later
segment. -/
def parseUrl (path : String) : Except String (List String) :=
  let splitPaths := patchvisitors.goSplit path '/'
  let p1 := frontPop splitPaths
  if p1.1 ≠ "" ∨ p1.2.2 = false then
    .error "\x22invalid path, path should start with the form \x27/v1/...\x27\x22"
  else
    let p2 := frontPop p1.2.1
    if p2.1 ≠ "v1" ∨ p2.2.2 = false then
      .error "\x22invalid path, path should start with the form \x27/v1/...\x27\x22"
    else if p2.2.1.length = 0 then
      .error "\x22invalid path, no database specified\x22"
    else
      .ok p2.2.1

/-- Result of `lastRealItem`: whether the deepest existing item is a
collection, that document and collection (when set), and the index of the
deepest segment that resolved. -/
structure LastRealResult where
  endsOnCol : Bool
  lastDoc : Option HDocument
  lastCol : Option HCollection
  lastGoodIndex : ℤ

/-- The indexed loop of `lastRealItem` (handler source lines 299-340),
walking the remaining segments with the running index `i`, the parity flag
`colLastFound` and the current collection/document.  The source dereferences
`curDoc` / `curCol` that its own alternation always has set; the impossible
nil dereference is kept as a distinct error. -/
def lastRealGo (dbIndex : List (String × HCollection)) (total : ℕ) :
    List String → ℕ → Bool → Option HCollection → Option HDocument →
    Except String LastRealResult
  | [], _, colLastFound, curCol, curDoc =>
    .ok { endsOnCol := colLastFound, lastDoc := curDoc, lastCol := curCol,
          lastGoodIndex := (total : ℤ) - 1 }
  | elementName :: rest, i, colLastFound, curCol, curDoc =>
    if (i ≠ total - 1 ∨ i = 0) ∧ elementName = "" then
      .error "\x22 // not allowed\x22"
    else if !colLastFound then
      if i = 0 then
        match dbIndex.lookup elementName with
        | none =>
          .ok { endsOnCol := colLastFound, lastDoc := none, lastCol := none,
                lastGoodIndex := (i : ℤ) - 1 }
        | some db => lastRealGo dbIndex total rest (i + 1) true (some db) curDoc
      else
        match curDoc with
        | none => .error "panic: nil pointer dereference"
        | some d =>
          match d.findCollection elementName with
          | none =>
            .ok { endsOnCol := colLastFound, lastDoc := curDoc, lastCol := none,
                  lastGoodIndex := (i : ℤ) - 1 }
          | some col => lastRealGo dbIndex total rest (i + 1) true (some col) curDoc
    else
      match curCol with
      | none => .error "panic: nil pointer dereference"
      | some c =>
        match c.findDocument elementName with
        | none =>
          .ok { endsOnCol := true, lastDoc := curDoc, lastCol := curCol,
                lastGoodIndex := (i : ℤ) - 1 }
        | some doc => lastRealGo dbIndex total rest (i + 1) false curCol (some doc)

/-- Model of `lastRealItem` (handler source lines 289-343): reject odd
segment counts greater than one, then walk. -/
def lastRealItem (dbIndex : List (String × HCollection)) (splitpaths : List String) :
    Except String LastRealResult :=
  if splitpaths.length > 1 ∧ splitpaths.length % 2 = 1 then
    .error "\x22bad path\x22"
  else
    lastRealGo dbIndex splitpaths.length splitpaths 0 false none none

end handler

namespace handler

open jsondata

/-- Maximum Unicode scalar value, the source's `"\U0010FFFF"` sentinel used
as the upper bound of an open interval. -/
def maxKeyString : String := String.mk [Char.ofNat 0x10FFFF]

/-- Drop characters up to (excluding) the first `/`. -/
def dropUntilSlash : List Char → List Char
  | [] => []
  | c :: rest => if c = '/' then c :: rest else dropUntilSlash rest

/-- Strip the request path to the part after the database name, as the
handlers do with `r.URL.Path[4:]` followed by slicing from the first `/`:
drop the four bytes `/v1/` and then everything before the next slash
(keeping the slash).  The source computes a byte index; on the `/v1/...`
paths the handlers see, bytes and characters agree.  When no slash remains
Go would slice at index -1 and panic; the branches that call this helper
always have one. -/
def urlPathAfterDb (path : String) : String :=
  String.mk (dropUntilSlash (path.toList.drop 4))

/-- Parse the `interval` query parameter (getHandler.go lines 75-92): an
absent parameter means `[,]`; the first byte must be `[`, the last `]`, and
splitting on `,` must give exactly two parts; the bracket is stripped from
each bound and an empty upper bound becomes the maximum scalar value. -/
def parseInterval (intervalQuery : String) : Except String (String × String) :=
  let iq := if intervalQuery = "" then "[,]" else intervalQuery
  let parts := patchvisitors.goSplit iq ','
  if iq.toList.headD ' ' ≠ '[' ∨ iq.toList.getLastD ' ' ≠ ']' ∨ parts.length ≠ 2 then
    .error "\x22malformed interval query parameter\x22"
  else
    let low := String.mk ((parts.headD "").toList.drop 1)
    let high := String.mk ((parts.getD 1 "").toList.dropLast)
    .ok (low, if high = "" then maxKeyString else high)

/-- A GET request as the handler sees it: the URL path, the `mode` and
`interval` query parameters (empty when absent) and the outcome of the
bearer-token check (the Auth collaborator). -/
structure GetRequest where
  path : String
  mode : String
  interval : String
  authOk : Bool

/-- What a GET response carries: an error body, a collection render (the
JSON array produced by `CollectionJsonMake` over the interval), a document
render (`DocumentJsonMake`), or the switch to an event stream.  The renders
are represented symbolically by their inputs; their byte layout is produced
by the external `encoding/json`. -/
inductive GetBody where
  | errBody (msg : String)
  | collectionRender (low high urlPath : String) (col : HCollection)
  | documentRender (urlPath : String) (doc : HDocument)
  | subscribeStream (docName : String) (col : HCollection)

/-- Status and body of a GET response. -/
structure GetResponse where
  status : ℕ
  body : GetBody

/-- Model of the GET dispatcher (getHandler.go lines 12-136): authorize,
check `mode`, parse the path, resolve the deepest existing prefix, and
branch on the terminal shape.  Render failures of the external marshaller
and of the interval-bounded query are not modelled (no checked property
concerns them). -/
def get (dbIndex : List (String × HCollection)) (r : GetRequest) : GetResponse :=
  if ¬ r.authOk then
    { status := 401, body := .errBody "\x22unauthorized\x22" }
  else if r.mode ≠ "" ∧ r.mode ≠ "subscribe" then
    { status := 400, body := .errBody "\x22invalid query parameter\x22" }
  else
    match parseUrl r.path with
    | .error e => { status := 400, body := .errBody e }
    | .ok splitPaths =>
      match lastRealItem dbIndex splitPaths with
      | .error e => { status := 400, body := .errBody e }
      | .ok lri =>
        if lri.endsOnCol then
          if lri.lastGoodIndex = (splitPaths.length : ℤ) - 1 then
            { status := 400, body := .errBody "\x22insufficient path length\x22" }
          else if lri.lastGoodIndex = (splitPaths.length : ℤ) - 2 ∧
              splitPaths.getLastD "" = "" then
            match lri.lastCol with
            | none => { status := 500, body := .errBody "panic: nil pointer dereference" }
            | some col =>
              if r.mode = "subscribe" then
                { status := 200, body := .subscribeStream "" col }
              else
                match parseInterval r.interval with
                | .error e => { status := 400, body := .errBody e }
                | .ok bounds =>
                  { status := 200,
                    body := .collectionRender bounds.1 bounds.2 (urlPathAfterDb r.path) col }
          else
            { status := 404, body := .errBody "\x22Document does not exist\x22" }
        else
          if lri.lastGoodIndex ≠ (splitPaths.length : ℤ) - 1 then
            { status := 404, body := .errBody "\x22Collection does not exist\x22" }
          else
            match lri.lastDoc with
            | none => { status := 500, body := .errBody "panic: nil pointer dereference" }
            | some doc =>
              if r.mode = "subscribe" then
                match lri.lastCol with
                | none => { status := 500, body := .errBody "panic: nil pointer dereference" }
                | some col => { status := 200, body := .subscribeStream doc.name col }
              else
                { status := 200, body := .documentRender (urlPathAfterDb r.path) doc }

end handler

namespace handler

open jsondata

/-- The running state of the patch-application loop of the PATCH handler
(postHandler source, patch section lines 561-664): the HTTP status to
return, the failure flag, the diagnostic message and the document JSON being
rewritten. -/
structure PatchLoopState where
  retStatus : ℕ
  patchFailed : Bool
  message : String
  docJson : JSONValue

/-- The `for _, operation := range patchOperationsList` loop (patch section
lines 637-663): extract each operation with the `PatchVisitor`; an
extraction failure sets status 400 with `patchFailed` and stops; an
application failure (the `DocVisitor`) sets `patchFailed` and stops but
leaves the status; a success feeds the rewritten JSON to the next
operation. -/
def applyPatchOps : List JSONValue → PatchLoopState → PatchLoopState
  | [], st => st
  | operation :: rest, st =>
    match patchvisitors.PatchVisitor.accept operation with
    | .error e => { st with retStatus := 400, patchFailed := true, message := e }
    | .ok p =>
      match (patchvisitors.NewDocVisitor p.op p.path p.value).accept st.docJson with
      | .error e => { st with patchFailed := true, message := e }
      | .ok dj => applyPatchOps rest { st with docJson := dj }

/-- Body of a PATCH response: either an error body written by `errorHelper`,
or the `jsonPatchMessageFormat` record `(uri, patchFailed, message)`. -/
inductive PatchBody where
  | errBody (msg : String)
  | patchMsg (uri : String) (patchFailed : Bool) (message : String)

/-- Status, body and resulting stored document of a PATCH on an existing
document. -/
structure PatchResult where
  status : ℕ
  body : PatchBody
  doc : document.Document

/-- Model of the PATCH handler's work on an existing document: the
check function passed to `PutDocument` (patch section lines 603-701)
followed by the response assembly (lines 733-743).  Inputs: the requesting
principal, the clock, the schema validator (external collaborator), the
request path (which becomes the response `uri`), the stored document and the
parsed request body.  The stored data always is a valid encoding, so the
initial `json.Unmarshal` of the document bytes cannot fail; `json.Marshal`
of the rewritten value and the notification fan-out (modelled separately)
are external to this function. -/
def patchDocument (username : String) (now : ℤ) (schemaOk : JSONValue → Bool)
    (uri : String) (currValue : document.Document) (encodedOps : JSONValue) : PatchResult :=
  let st0 : PatchLoopState :=
    { retStatus := 200, patchFailed := false, message := "", docJson := currValue.data }
  let st :=
    match patchvisitors.PatchOpListVisitor.accept encodedOps with
    | .error e => { st0 with retStatus := 400, patchFailed := true, message := e }
    | .ok patchOperationsList => applyPatchOps patchOperationsList st0
  let message := if st.message = "" then "patch applied" else st.message
  if ¬ st.patchFailed then
    if ¬ schemaOk st.docJson then
      { status := 400, body := .errBody "\x22Request does not conform to database schema\x22",
        doc := currValue }
    else
      { status := st.retStatus,
        body := .patchMsg uri st.patchFailed message,
        doc := document.ReplaceData (document.ModifyMetadata currValue username now) st.docJson }
  else
    { status := st.retStatus,
      body := .patchMsg uri st.patchFailed message,
      doc := currValue }

/-- A POST request as the handler sees it: path, `Content-Type` header, the
outcome of the bearer-token check and the authenticated principal. -/
structure PostRequest where
  path : String
  contentType : String
  authOk : Bool
  username : String

/-- Body of a POST response: an error body or the `jsonPutMessageFormat`
record carrying the new document's URI. -/
inductive PostBody where
  | errBody (msg : String)
  | uriBody (uri : String)

/-- Status, body and `Location` header of a POST response. -/
structure PostResponse where
  status : ℕ
  body : PostBody
  location : Option String

/-- The `for !beenPlaced` loop of the POST handler (postHandler source lines
93-126): each pass formats the current wall clock as the candidate name and
calls `PutDocument`, whose check function refuses an existing key with the
error "document already exists" (making the loop retry) and otherwise
creates the document.  The model receives the successive clock readings as
`genNames` and reports the first untaken one; `none` stands for the
unbounded spin on an exhausted supply. -/
def postPlaceGo (docs : List (String × HDocument)) : List String → Option String
  | [] => none
  | name :: rest => if (docs.lookup name).isSome then postPlaceGo docs rest else some name

/-- Model of the POST dispatcher (postHandler.go lines 18-163).  `bodyCheck`
is the outcome of the body pipeline of lines 28-57 (read, `json.Unmarshal`
into a `JSONValue`, schema validation, re-marshal check), all performed by
external collaborators before the path is examined; `genNames` feeds the
name-generation loop.  `none` is returned when that loop never finds a free
name.  The check function's only other error exit, a failing
`DocumentJsonMake` on the fresh document (line 108), is a marshal failure of
the external collaborator and is not modelled. -/
def post (dbIndex : List (String × HCollection)) (r : PostRequest)
    (bodyCheck : Except String Unit) (genNames : List String) : Option PostResponse :=
  if ¬ r.authOk then
    some { status := 401, body := .errBody "\x22unauthorized\x22", location := none }
  else
    match bodyCheck with
    | .error e => some { status := 400, body := .errBody e, location := none }
    | .ok _ =>
      match parseUrl r.path with
      | .error e => some { status := 400, body := .errBody e, location := none }
      | .ok splitPaths =>
        match lastRealItem dbIndex splitPaths with
        | .error e => some { status := 400, body := .errBody e, location := none }
        | .ok lri =>
          if ¬ (splitPaths.length % 2 = 0 ∧ splitPaths.getLastD "" = "") then
            some { status := 400, body := .errBody "\x22not collection path\x22",
                   location := none }
          else if r.contentType ≠ "application/json" then
            some { status := 400,
                   body := .errBody "\x22content type must be application/json\x22",
                   location := none }
          else if lri.endsOnCol then
            if lri.lastGoodIndex = (splitPaths.length : ℤ) - 2 ∧
                splitPaths.getLastD "" = "" then
              match lri.lastCol with
              | none =>
                some { status := 500, body := .errBody "panic: nil pointer dereference",
                       location := none }
              | some col =>
                match postPlaceGo col.docs genNames with
                | none => none
                | some docName =>
                  some { status := 201, body := .uriBody (r.path ++ docName),
                         location := some r.path }
            else if lri.lastGoodIndex = (splitPaths.length : ℤ) - 2 then
              some { status := 400, body := .errBody "\x22bad path\x22", location := none }
            else
              some { status := 404, body := .errBody "\x22document not found\x22",
                     location := none }
          else
            if lri.lastGoodIndex = (splitPaths.length : ℤ) - 1 then
              some { status := 400, body := .errBody "\x22bad request\x22", location := none }
            else
              some { status := 404, body := .errBody "\x22collection not found\x22",
                     location := none }

/-- Capacity of a subscriber's delivery channel: `reader := make(chan any)`
(subscription source line 123) is unbuffered. -/
def readerChanCapacity : ℕ := 0

/-- Observable state of one subscriber at fan-out time: whether its loop is
parked at the receive on its (unbuffered) `reader` channel, and whether its
`done` channel has been closed by teardown. -/
structure SubscriberState where
  readerReady : Bool
  doneClosed : Bool
deriving Repr, DecidableEq

/-- The two ways a `select` iteration of `notifySubscriptions` can resolve. -/
inductive Disposition where
  | handedOff
  | observedDone
deriving Repr, DecidableEq

/-- One iteration of the fan-out loop of `notifySubscriptions` (subscription
source lines 167-176): a two-case `select` with no `default` over the
closed-or-not `done` channel and the unbuffered delivery channel.  Go
semantics: the `select` commits to a ready case (choosing pseudorandomly if
both are ready; the model prefers `done`, and no checked property depends on
the choice) and otherwise blocks, which the model reports as `none`. -/
def selectDeliver (sub : SubscriberState) : Option Disposition :=
  if sub.doneClosed then some .observedDone
  else if sub.readerReady then some .handedOff
  else none

/-- Model of `notifySubscriptions` (subscription source lines 165-178): walk
the snapshot of the subscriber set and run the `select` for each; the
producer reaches the next subscriber only after the current `select`
resolves, so a blocked `select` blocks the whole fan-out (`none`). -/
def notifySubscriptions : List SubscriberState → Option (List Disposition)
  | [] => some []
  | sub :: rest =>
    match selectDeliver sub with
    | none => none
    | some d =>
      match notifySubscriptions rest with
      | none => none
      | some ds => some (d :: ds)

end handler

namespace handler

/-- The existing-document branch of the check function that the PUT handler
passes to `PutDocument` (postHandler.go lines 373-390): refresh the metadata
with the requesting principal and the current time, then replace the payload
with the validated request body.  (The subsequent `DocumentJsonMake` and the
notification fan-out do not touch the document.) -/
def putOverwriteExisting (username : String) (encoded : jsondata.JSONValue) (now : ℤ)
    (currValue : document.Document) : document.Document :=
  document.ReplaceData (document.ModifyMetadata currValue username now) encoded

end handler

/-!
Helper lemmas shared by the claim theorems.
-/

namespace skipList

/-- Bounds for the `randomLevel` loop: the result is the loop counter (which
stays nonnegative) or `upTo` itself. -/
theorem randomLevelGo_bounds (draw : ℕ → Bool) (upTo : ℤ) (h : 0 ≤ upTo) :
    ∀ fuel n, 0 ≤ randomLevelGo draw upTo n fuel ∧ randomLevelGo draw upTo n fuel ≤ upTo := by
  intro fuel
  induction fuel with
  | zero => intro n; exact ⟨h, le_rfl⟩
  | succ f ih =>
    intro n
    simp only [randomLevelGo]
    split
    · split
      · exact ⟨Int.natCast_nonneg n, le_of_lt (by assumption)⟩
      · exact ih (n + 1)
    · exact ⟨h, le_rfl⟩

/-- Refreshing a node's time leaves every stored value in place. -/
theorem updateTime_map_value {K V : Type} [DecidableEq K]
    (s : List (SNode K V)) (key : K) (now : ℕ) :
    (updateTime s key now).map SNode.value = s.map SNode.value := by
  induction s with
  | nil => rfl
  | cons x rest ih =>
    simp only [updateTime, List.map_cons] at ih ⊢
    rw [ih]
    congr 1
    split <;> rfl

/-- Refreshing a node's time leaves every stored key in place. -/
theorem updateTime_map_key {K V : Type} [DecidableEq K]
    (s : List (SNode K V)) (key : K) (now : ℕ) :
    (updateTime s key now).map SNode.key = s.map SNode.key := by
  induction s with
  | nil => rfl
  | cons x rest ih =>
    simp only [updateTime, List.map_cons] at ih ⊢
    rw [ih]
    congr 1
    split <;> rfl

/-- After `updateTime` the node found at `key` (which was present before)
carries the new time. -/
theorem findNode_updateTime_time {K V : Type} [DecidableEq K]
    (s : List (SNode K V)) (key : K) (now : ℕ) (found : SNode K V)
    (h : findNode s key = some found) :
    (findNode (updateTime s key now) key).map SNode.time = some now := by
  induction s with
  | nil => simp [findNode] at h
  | cons x rest ih =>
    by_cases hx : x.key = key
    · simp [findNode, updateTime, List.find?_cons_of_pos, hx]
    · have h2 : findNode rest key = some found := by
        simpa [findNode, List.find?_cons_of_neg, hx] using h
      simpa [findNode, updateTime, List.find?_cons_of_neg, hx] using ih h2

end skipList

namespace handler

/-- The fan-out resolves iff every subscriber's `select` resolves. -/
theorem notifySubscriptions_isSome_cons (sub : SubscriberState) (rest : List SubscriberState) :
    (notifySubscriptions (sub :: rest)).isSome =
      ((selectDeliver sub).isSome && (notifySubscriptions rest).isSome) := by
  cases h1 : selectDeliver sub <;> cases h2 : notifySubscriptions rest <;>
    simp [notifySubscriptions, h1, h2]

/-- A single `select` resolves iff the done channel is closed or the reader
is parked at its receive. -/
theorem selectDeliver_isSome (sub : SubscriberState) :
    (selectDeliver sub).isSome = (sub.doneClosed || sub.readerReady) := by
  cases hdc : sub.doneClosed <;> cases hrr : sub.readerReady <;>
    simp [selectDeliver, hdc, hrr]

end handler

/-!
The claim theorems.
-/

/-- C10: for every integer `upTo ≥ 0`, `randomLevel(upTo)` (a total function
of the draw, so terminating by construction) returns `n` with
`0 ≤ n ≤ upTo`; consequently the top level `randomLevel(len(head.next)-2)`
that `Upsert` draws for a new node is at most 3, so every level
`0 ≤ level ≤ topLevel` used to index `preds[level]` and `node.next[level]`
is below the head height 5 and below the `topLevel+1` length of the new
node's pointer array. -/
theorem randomLevel_bounded_upsert_in_bounds (draw : ℕ → Bool) (upTo : ℤ) (h : 0 ≤ upTo) :
    (0 ≤ skipList.randomLevel draw upTo ∧ skipList.randomLevel draw upTo ≤ upTo) ∧
    (0 ≤ skipList.randomLevel draw ((skipList.headNextLen : ℤ) - 2) ∧
      skipList.randomLevel draw ((skipList.headNextLen : ℤ) - 2) ≤ 3 ∧
      ∀ level : ℤ, 0 ≤ level →
        level ≤ skipList.randomLevel draw ((skipList.headNextLen : ℤ) - 2) →
        level < (skipList.headNextLen : ℤ) ∧
        level < skipList.randomLevel draw ((skipList.headNextLen : ℤ) - 2) + 1) := by
  have hb := skipList.randomLevelGo_bounds draw upTo h
  have h3 : (0 : ℤ) ≤ (skipList.headNextLen : ℤ) - 2 := by norm_num [skipList.headNextLen]
  have hb3 := skipList.randomLevelGo_bounds draw ((skipList.headNextLen : ℤ) - 2) h3
  refine ⟨hb upTo.toNat 0, ⟨(hb3 _ 0).1, ?_, ?_⟩⟩
  · have := (hb3 ((skipList.headNextLen : ℤ) - 2).toNat 0).2
    simpa [skipList.randomLevel, skipList.headNextLen] using this
  · intro level h0 hle
    have hup := (hb3 ((skipList.headNextLen : ℤ) - 2).toNat 0).2
    simp only [skipList.randomLevel] at hle ⊢
    have h5 : ((skipList.headNextLen : ℤ) - 2) = 3 := by norm_num [skipList.headNextLen]
    constructor
    · simp only [skipList.headNextLen] at hup hle ⊢
      omega
    · omega

/-- C10 witness: concrete draw and bound. -/
theorem randomLevel_bounded_upsert_in_bounds_witness :
    (0 : ℤ) ≤ 3 ∧
    ((0 ≤ skipList.randomLevel (fun _ => false) 3 ∧ skipList.randomLevel (fun _ => false) 3 ≤ 3) ∧
      (0 ≤ skipList.randomLevel (fun _ => false) ((skipList.headNextLen : ℤ) - 2) ∧
        skipList.randomLevel (fun _ => false) ((skipList.headNextLen : ℤ) - 2) ≤ 3 ∧
        ∀ level : ℤ, 0 ≤ level →
          level ≤ skipList.randomLevel (fun _ => false) ((skipList.headNextLen : ℤ) - 2) →
          level < (skipList.headNextLen : ℤ) ∧
          level < skipList.randomLevel (fun _ => false) ((skipList.headNextLen : ℤ) - 2) + 1)) :=
  ⟨by decide, randomLevel_bounded_upsert_in_bounds (fun _ => false) 3 (by decide)⟩

/-- C1: the claim says the check function's return value becomes the stored
value both on insert and on an existing key.  The insert branch does store
it, but on an existing key the source's assignment of the returned value
into the node is commented out (skip list source lines 777-779), while its
own log line claims the node was modified to the new value: `Upsert` on the
key "4" stored as 3, with the repository test suite's own check function
(add 3 when the key exists), returns the new value 6 with a nil error, yet
the value stored at "4" afterwards is still 3. -/
theorem upsert_existing_key_leaves_stored_value :
    skipList.Upsert [⟨"4", (3 : ℤ), 0, false, true, 0⟩] "4"
        (fun _ currValue existsFlag =>
          if existsFlag then (3 + currValue, none) else (3, none))
        (fun _ => false) 7 0 =
      some ((6, none), [⟨"4", 3, 0, false, true, 7⟩]) ∧
    skipList.Find [⟨"4", (3 : ℤ), 0, false, true, 7⟩] "4" = some 3 ∧ (6 : ℤ) ≠ 3 := by
  exact ⟨by decide, by decide, by decide⟩

/-- C2 counterexample: the claim says that on a check error the index makes
no state change at all, the existing node's last-modified time included.
But `Upsert` writes `found.time = time.Now()` before it even calls the
check function: on the node stored at time 5 with the clock at 7 and an
erroring check, the resulting state carries time 7 and differs from the
original. -/
theorem upsert_check_error_time_changed_cex :
    skipList.Upsert [⟨"k", (10 : ℤ), 0, false, true, 5⟩] "k"
        (fun _ currValue _ => (currValue, some "check failed")) (fun _ => false) 7 0 =
      some ((10, some "check failed"), [⟨"k", 10, 0, false, true, 7⟩]) ∧
    ([⟨"k", (10 : ℤ), 0, false, true, 7⟩] : List (skipList.SNode String ℤ)) ≠
      [⟨"k", 10, 0, false, true, 5⟩] := by
  exact ⟨by decide, by decide⟩

/-- C2 amended: when the check function errors, `Upsert` surfaces the error
verbatim and neither inserts a node nor changes any stored value — but when
the key already exists, the node's last-modified time (the identity token
used by query validation) is refreshed to the current time even on error;
only for an absent key is the state fully unchanged. -/
theorem upsert_check_error_amended {V : Type}
    (s : List (skipList.SNode String V)) (key : String)
    (check : String → V → Bool → V × Option String)
    (draw : ℕ → Bool) (now : ℕ) (defaultV : V) :
    (skipList.findNode s key = none →
      ∀ v e, check key defaultV false = (v, some e) →
        skipList.Upsert s key check draw now defaultV = some ((defaultV, some e), s)) ∧
    (∀ found, skipList.findNode s key = some found → found.marked = false →
      found.fullyLinked = true →
      ∀ tp e, check key found.value true = (tp, some e) →
        skipList.Upsert s key check draw now defaultV =
          some ((tp, some e), skipList.updateTime s key now) ∧
        (skipList.updateTime s key now).map skipList.SNode.value =
          s.map skipList.SNode.value ∧
        (skipList.updateTime s key now).map skipList.SNode.key =
          s.map skipList.SNode.key ∧
        (skipList.findNode (skipList.updateTime s key now) key).map skipList.SNode.time =
          some now) := by
  constructor
  · intro h v e hc
    simp [skipList.Upsert, h, hc]
  · intro found hf hm hfl tp e hc
    refine ⟨?_, skipList.updateTime_map_value s key now, skipList.updateTime_map_key s key now,
      skipList.findNode_updateTime_time s key now found hf⟩
    simp [skipList.Upsert, hf, hm, hfl, hc]

/-- C2 witness: both branches of the amended theorem at concrete inputs. -/
theorem upsert_check_error_amended_witness :
    (skipList.findNode ([] : List (skipList.SNode String ℤ)) "k" = none →
      ∀ v e, (fun (_ : String) (currValue : ℤ) (_ : Bool) =>
          (currValue, some "check failed")) "k" (0 : ℤ) false = (v, some e) →
        skipList.Upsert ([] : List (skipList.SNode String ℤ)) "k"
            (fun _ currValue _ => (currValue, some "check failed")) (fun _ => false) 7 0 =
          some ((0, some e), [])) ∧
    (∀ found, skipList.findNode [(⟨"k", (10 : ℤ), 0, false, true, 5⟩ : skipList.SNode String ℤ)]
        "k" = some found → found.marked = false → found.fullyLinked = true →
      ∀ tp e, (fun (_ : String) (currValue : ℤ) (_ : Bool) =>
          (currValue, some "check failed")) "k" found.value true = (tp, some e) →
        skipList.Upsert [⟨"k", (10 : ℤ), 0, false, true, 5⟩] "k"
            (fun _ currValue _ => (currValue, some "check failed")) (fun _ => false) 7 0 =
          some ((tp, some e), skipList.updateTime [⟨"k", 10, 0, false, true, 5⟩] "k" 7) ∧
        (skipList.updateTime [(⟨"k", (10 : ℤ), 0, false, true, 5⟩ : skipList.SNode String ℤ)]
            "k" 7).map skipList.SNode.value = [⟨"k", (10 : ℤ), 0, false, true, 5⟩].map
            skipList.SNode.value ∧
        (skipList.updateTime [(⟨"k", (10 : ℤ), 0, false, true, 5⟩ : skipList.SNode String ℤ)]
            "k" 7).map skipList.SNode.key = [⟨"k", (10 : ℤ), 0, false, true, 5⟩].map
            skipList.SNode.key ∧
        (skipList.findNode (skipList.updateTime
            [(⟨"k", (10 : ℤ), 0, false, true, 5⟩ : skipList.SNode String ℤ)] "k" 7)
            "k").map skipList.SNode.time = some 7) :=
  ⟨(upsert_check_error_amended [] "k" (fun _ currValue _ => (currValue, some "check failed"))
      (fun _ => false) 7 0).1,
   (upsert_check_error_amended [⟨"k", 10, 0, false, true, 5⟩] "k"
      (fun _ currValue _ => (currValue, some "check failed")) (fun _ => false) 7 0).2⟩

/-- C3: a successful PUT overwrite of an existing document runs
`ModifyMetadata` then `ReplaceData` on the stored document: `createdAt`,
`createdBy` and the name are untouched, `lastModifiedAt` becomes the current
time and `lastModifiedBy` the requesting principal (and the payload becomes
the request body). -/
theorem put_overwrite_preserves_creation_metadata (username : String)
    (encoded : jsondata.JSONValue) (now : ℤ) (d : document.Document) :
    (handler.putOverwriteExisting username encoded now d).metadata.createdAt =
      d.metadata.createdAt ∧
    (handler.putOverwriteExisting username encoded now d).metadata.createdBy =
      d.metadata.createdBy ∧
    (handler.putOverwriteExisting username encoded now d).metadata.lastModifiedAt = now ∧
    (handler.putOverwriteExisting username encoded now d).metadata.lastModifiedBy = username ∧
    (handler.putOverwriteExisting username encoded now d).name = d.name ∧
    (handler.putOverwriteExisting username encoded now d).data = encoded := by
  simp [handler.putOverwriteExisting, document.ModifyMetadata, document.ReplaceData]

/-- C9 counterexample: the claim says the fan-out never blocks indefinitely
on a subscriber that neither reads nor has signaled done.  The subscriber's
delivery channel is unbuffered and the producer's `select` has no `default`
case, so with a subscriber in exactly that state the `select` has no ready
case and the fan-out blocks. -/
theorem notify_slow_subscriber_blocks_cex :
    handler.readerChanCapacity = 0 ∧
    handler.selectDeliver ⟨false, false⟩ = none ∧
    handler.notifySubscriptions [⟨false, false⟩] = none := by
  exact ⟨rfl, rfl, rfl⟩

/-- C9 amended: for each subscriber in the snapshot the producer's `select`
resolves into a handoff or a done observation exactly when the subscriber's
delivery endpoint is ready to receive or its done signal has fired; the
fan-out over the snapshot completes iff every subscriber satisfies that, and
with a slow subscriber that neither reads nor has signaled done the producer
blocks (delivery is blocking, not best-effort). -/
theorem notify_dual_disposition_iff (subs : List handler.SubscriberState) :
    (handler.notifySubscriptions subs).isSome = true ↔
      ∀ sub ∈ subs, sub.doneClosed = true ∨ sub.readerReady = true := by
  induction subs with
  | nil => simp [handler.notifySubscriptions]
  | cons sub rest ih =>
    rw [handler.notifySubscriptions_isSome_cons]
    simp only [Bool.and_eq_true, handler.selectDeliver_isSome, Bool.or_eq_true, ih,
      List.mem_cons]
    constructor
    · rintro ⟨h1, h2⟩ x hx
      rcases hx with rfl | hx
      · exact h1
      · exact h2 x hx
    · intro h
      exact ⟨h sub (Or.inl rfl), fun x hx => h x (Or.inr hx)⟩

namespace skipList

/-- The only error `copyValues` produces is the copy error. -/
theorem copyValues_error_eq {V : Type} (copier : V → Option V) :
    ∀ (l : List (SNode String V)) (msg : String),
      copyValues copier l = .error msg → msg = copyErrMsg := by
  intro l
  induction l with
  | nil => intro msg h; simp [copyValues] at h
  | cons nd rest ih =>
    intro msg h
    rcases hc : copier nd.value with _ | c
    · rw [copyValues, hc] at h
      exact (Except.error.inj h).symm
    · rw [copyValues, hc] at h
      rcases hr : copyValues copier rest with e | cs
      · rw [hr] at h
        exact ih e (by rw [hr]) ▸ (Except.error.inj h).symm
      · rw [hr] at h
        exact absurd h (by simp)

/-- The loop guard of `Query` fails exactly when the context is non-nil,
carries a deadline, the deadline has passed, and `ctx.Err()` is non-nil. -/
theorem queryContinue_eq_false_iff (ctx : QueryCtx) (now : ℕ) :
    queryContinue ctx now = false ↔
      ctx.isNil = false ∧ ∃ d, ctx.deadline = some d ∧ d < now ∧ ctx.errSet = true := by
  rcases ctx with ⟨isNil, deadline, errSet⟩
  cases isNil <;> cases errSet <;> rcases deadline with _ | d <;>
    simp [queryContinue]

end skipList

/-- C5 counterexample: the claim says a fired cancellation signal
(`ctx.Err()` non-nil) makes `Query` stop and return the deadline error even
when the context carries no deadline.  But the loop guard is a disjunction
in which a missing deadline (`!ok`) keeps the loop running regardless of
`ctx.Err()`: on a cancelled context without a deadline and a one-node list,
the scans match and `Query` returns the snapshot, not the deadline error. -/
theorem query_cancelled_without_deadline_cex :
    skipList.Query ⟨false, none, true⟩ 100 [⟨"a", (1 : ℤ), 0, false, true, 0⟩] "" "b"
        (fun v => some v) =
      some (.ok (["a"], [1])) ∧
    (Except.ok (["a"], [(1 : ℤ)]) : Except String (List String × List ℤ)) ≠
      .error skipList.deadlineMsg := by
  exact ⟨rfl, by simp⟩

/-- C5 amended: `Query` returns the deadline error exactly when the context
is non-nil, carries a deadline, that deadline has passed, and `ctx.Err()`
is non-nil — all four at once (the guard is evaluated before each pair of
scans).  A cancellation with no deadline, or with a deadline that has not
yet passed, does not stop the retry loop. -/
theorem query_deadline_error_iff {V : Type} (ctx : skipList.QueryCtx) (now : ℕ)
    (s : List (skipList.SNode String V)) (start e : String) (copier : V → Option V) :
    skipList.Query ctx now s start e copier = some (.error skipList.deadlineMsg) ↔
      (ctx.isNil = false ∧ ∃ d, ctx.deadline = some d ∧ d < now ∧ ctx.errSet = true) := by
  rw [← skipList.queryContinue_eq_false_iff ctx now]
  unfold skipList.Query
  constructor
  · intro h
    by_cases hc : skipList.queryContinue ctx now = true
    · exfalso
      rw [if_pos hc] at h
      rcases hcv : skipList.copyValues copier
          ((skipList.queryWalk start e s).filter (fun nd => !nd.marked)) with msg | vs
      · rw [hcv] at h
        have hmsg := skipList.copyValues_error_eq copier _ msg hcv
        have hdm : msg = skipList.deadlineMsg := Except.error.inj (Option.some.inj h)
        exact absurd (hmsg ▸ hdm) (by decide)
      · rw [hcv] at h
        by_cases hq : skipList.querySecond (skipList.queryWalk start e s)
            ((skipList.queryWalk start e s).filter (fun nd => !nd.marked)) = true
        · simp [hq] at h
        · simp [hq] at h
    · simpa using hc
  · intro h
    rw [if_neg (by simp [h])]

/-- C4 counterexample: the claim says a GET of a database path (one segment,
no trailing slash) naming an existing top-level collection returns 200 with
the rendered collection.  The handler instead answers 400 "insufficient
path length" for that very shape (and the repository's own test expects
exactly that): rendered collections require the trailing-slash form. -/
theorem get_database_path_cex :
    handler.get [("db1", .mk "db1" [])]
        { path := "/v1/db1", mode := "", interval := "", authOk := true } =
      { status := 400, body := .errBody "\x22insufficient path length\x22" } ∧
    (handler.get [("db1", .mk "db1" [])]
        { path := "/v1/db1", mode := "", interval := "", authOk := true }).status ≠ 200 := by
  exact ⟨rfl, by decide⟩

/-- C4 amended: for every GET without `mode=subscribe` whose path parses to
a single nonempty segment (a database path) naming an existing top-level
collection, the response is 400 with body "insufficient path length". -/
theorem get_database_path_amended (dbIndex : List (String × handler.HCollection))
    (r : handler.GetRequest) (name : String) (col : handler.HCollection)
    (hauth : r.authOk = true) (hmode : r.mode = "")
    (hparse : handler.parseUrl r.path = .ok [name]) (hname : name ≠ "")
    (hfound : dbIndex.lookup name = some col) :
    handler.get dbIndex r =
      { status := 400, body := .errBody "\x22insufficient path length\x22" } := by
  unfold handler.get
  simp [hauth, hmode, hparse, handler.lastRealItem, handler.lastRealGo, hname, hfound]

/-- C4 witness: the amended theorem at the concrete one-database state. -/
theorem get_database_path_amended_witness :
    ({ path := "/v1/db1", mode := "", interval := "", authOk := true } :
        handler.GetRequest).authOk = true ∧
    ({ path := "/v1/db1", mode := "", interval := "", authOk := true } :
        handler.GetRequest).mode = "" ∧
    handler.parseUrl "/v1/db1" = .ok ["db1"] ∧
    "db1" ≠ "" ∧
    ([("db1", handler.HCollection.mk "db1" [])].lookup "db1" =
      some (handler.HCollection.mk "db1" [])) ∧
    handler.get [("db1", handler.HCollection.mk "db1" [])]
        { path := "/v1/db1", mode := "", interval := "", authOk := true } =
      { status := 400, body := .errBody "\x22insufficient path length\x22" } :=
  ⟨rfl, rfl, rfl, by decide, rfl,
    get_database_path_amended [("db1", handler.HCollection.mk "db1" [])]
      { path := "/v1/db1", mode := "", interval := "", authOk := true }
      "db1" (handler.HCollection.mk "db1" []) rfl rfl rfl (by decide) rfl⟩

/-- Applying a patch operation whose whole path is the empty string to a
JSON object errors with "path ends in map". -/
theorem docVisitor_empty_path_obj (v : jsondata.JSONValue)
    (m : List (String × jsondata.JSONValue)) :
    (patchvisitors.NewDocVisitor "ObjectAdd" "" v).accept (.obj m) =
      .error "error applying patches: path ends in map" := by
  have hps : patchvisitors.handlePathStart (patchvisitors.NewDocVisitor "ObjectAdd" "" v) =
      .ok ({ op := "ObjectAdd", path := "", value := v, first := false }, []) := rfl
  simp [patchvisitors.DocVisitor.accept, patchvisitors.DocVisitor.Map, hps]

/-- C7 counterexample: the claim quantifies over every existing document,
but the claimed message "error applying patches: path ends in map" is the
`DocVisitor.Map` diagnostic, produced only when the document's root is a
JSON object.  On an existing document whose stored JSON is an array, the
same request takes the `DocVisitor.Slice` branch and reports the sibling
message "error applying patches: ObjectAdd path ends in slice" instead
(still 200 with `patchFailed=true`). -/
theorem patch_empty_path_array_doc_cex :
    handler.patchDocument "test" 9 (fun _ => true) "/v1/db1/dc1"
        (document.Document.mk "dc1" (.arr [.boolean true]) ⟨0, "u", 0, "u"⟩)
        (.arr [.obj [("op", .str "ObjectAdd"), ("path", .str ""), ("value", .str "v")]]) =
      { status := 200,
        body := .patchMsg "/v1/db1/dc1" true
          "error applying patches: ObjectAdd path ends in slice",
        doc := document.Document.mk "dc1" (.arr [.boolean true]) ⟨0, "u", 0, "u"⟩ } ∧
    "error applying patches: ObjectAdd path ends in slice" ≠
      "error applying patches: path ends in map" := by
  have hps : patchvisitors.handlePathStart
      (patchvisitors.NewDocVisitor "ObjectAdd" "" (.str "v")) =
      .ok ({ op := "ObjectAdd", path := "", value := .str "v", first := false }, []) := rfl
  have hpv : patchvisitors.PatchVisitor.accept
      (.obj [("op", .str "ObjectAdd"), ("path", .str ""), ("value", .str "v")]) =
      .ok { op := "ObjectAdd", path := "", value := .str "v" } := rfl
  have hvisit : (patchvisitors.NewDocVisitor "ObjectAdd" "" (.str "v")).accept
      (.arr [.boolean true]) =
      .error "error applying patches: ObjectAdd path ends in slice" := by
    simp [patchvisitors.DocVisitor.accept, patchvisitors.DocVisitor.Slice, hps]
  refine ⟨?_, by decide⟩
  simp [handler.patchDocument, patchvisitors.PatchOpListVisitor.accept,
    handler.applyPatchOps, hpv, hvisit]

/-- C7 amended: a PATCH of an existing document whose stored JSON is an
object with the body `[{op: ObjectAdd, path: "", value: v}]` answers 200
with `patchFailed=true` and the exact message "error applying patches: path
ends in map", and the document is unchanged; on an array-rooted document
the message is the sibling slice diagnostic instead (see the
counterexample). -/
theorem patch_empty_path_object_add (username : String) (now : ℤ)
    (schemaOk : jsondata.JSONValue → Bool) (uri : String) (d : document.Document)
    (m : List (String × jsondata.JSONValue)) (hdoc : d.data = .obj m)
    (v : jsondata.JSONValue) :
    handler.patchDocument username now schemaOk uri d
        (.arr [.obj [("op", .str "ObjectAdd"), ("path", .str ""), ("value", v)]]) =
      { status := 200, body := .patchMsg uri true "error applying patches: path ends in map",
        doc := d } := by
  have hpv : patchvisitors.PatchVisitor.accept
      (.obj [("op", .str "ObjectAdd"), ("path", .str ""), ("value", v)]) =
      .ok { op := "ObjectAdd", path := "", value := v } := rfl
  simp [handler.patchDocument, patchvisitors.PatchOpListVisitor.accept,
    handler.applyPatchOps, hpv, hdoc, docVisitor_empty_path_obj]

/-- C7 witness: the claim theorem at a concrete document and value. -/
theorem patch_empty_path_object_add_witness :
    (document.Document.mk "dc1" (.obj [("prop1", .str "hello")]) ⟨0, "u", 0, "u"⟩).data =
      .obj [("prop1", .str "hello")] ∧
    handler.patchDocument "test" 9 (fun _ => true) "/v1/db1/dc1"
        (document.Document.mk "dc1" (.obj [("prop1", .str "hello")]) ⟨0, "u", 0, "u"⟩)
        (.arr [.obj [("op", .str "ObjectAdd"), ("path", .str ""),
          ("value", .arr [.boolean true])]]) =
      { status := 200,
        body := .patchMsg "/v1/db1/dc1" true "error applying patches: path ends in map",
        doc := document.Document.mk "dc1" (.obj [("prop1", .str "hello")]) ⟨0, "u", 0, "u"⟩ } :=
  ⟨rfl,
    patch_empty_path_object_add "test" 9 (fun _ => true) "/v1/db1/dc1"
      (document.Document.mk "dc1" (.obj [("prop1", .str "hello")]) ⟨0, "u", 0, "u"⟩)
      [("prop1", .str "hello")] rfl (.arr [.boolean true])⟩

/-- C6: when the PATCH body parses to an operation list but applying one of
the operations fails (the `DocVisitor` errors, e.g. on a decimal array index
at or beyond the array length), the response keeps status 200 with
`patchFailed=true` and the diagnostic as `message`, and the stored document
— payload and all four metadata fields — is returned exactly as it was:
the failure branch never reaches `ModifyMetadata` / `ReplaceData`. -/
theorem patch_apply_failure_leaves_document (username : String) (now : ℤ)
    (schemaOk : jsondata.JSONValue → Bool) (uri : String) (d : document.Document)
    (encodedOps : jsondata.JSONValue) (ops : List jsondata.JSONValue)
    (hops : patchvisitors.PatchOpListVisitor.accept encodedOps = .ok ops)
    (hfail : (handler.applyPatchOps ops
      { retStatus := 200, patchFailed := false, message := "", docJson := d.data }).patchFailed
        = true)
    (hstatus : (handler.applyPatchOps ops
      { retStatus := 200, patchFailed := false, message := "", docJson := d.data }).retStatus
        = 200) :
    handler.patchDocument username now schemaOk uri d encodedOps =
      { status := 200,
        body := .patchMsg uri true
          (if (handler.applyPatchOps ops
              { retStatus := 200, patchFailed := false, message := "",
                docJson := d.data }).message = "" then "patch applied"
            else (handler.applyPatchOps ops
              { retStatus := 200, patchFailed := false, message := "",
                docJson := d.data }).message),
        doc := d } := by
  simp [handler.patchDocument, hops, hfail, hstatus]

/-- C6 witness: the out-of-bounds index scenario: document
`{"a": [1]}` patched with `[{op: ArrayAdd, path: "/a/5", value: true}]`. -/
theorem patch_apply_failure_leaves_document_witness :
    patchvisitors.PatchOpListVisitor.accept
        (.arr [.obj [("op", .str "ArrayAdd"), ("path", .str "/a/5"),
          ("value", .boolean true)]]) =
      .ok [.obj [("op", .str "ArrayAdd"), ("path", .str "/a/5"), ("value", .boolean true)]] ∧
    (handler.applyPatchOps
      [.obj [("op", .str "ArrayAdd"), ("path", .str "/a/5"), ("value", .boolean true)]]
      { retStatus := 200, patchFailed := false, message := "",
        docJson := (document.Document.mk "dc1" (.obj [("a", .arr [.boolean false])])
          ⟨0, "u", 0, "u"⟩).data }).patchFailed = true ∧
    (handler.applyPatchOps
      [.obj [("op", .str "ArrayAdd"), ("path", .str "/a/5"), ("value", .boolean true)]]
      { retStatus := 200, patchFailed := false, message := "",
        docJson := (document.Document.mk "dc1" (.obj [("a", .arr [.boolean false])])
          ⟨0, "u", 0, "u"⟩).data }).retStatus = 200 ∧
    handler.patchDocument "test" 9 (fun _ => true) "/v1/db1/dc1"
        (document.Document.mk "dc1" (.obj [("a", .arr [.boolean false])]) ⟨0, "u", 0, "u"⟩)
        (.arr [.obj [("op", .str "ArrayAdd"), ("path", .str "/a/5"),
          ("value", .boolean true)]]) =
      { status := 200,
        body := .patchMsg "/v1/db1/dc1" true
          (if (handler.applyPatchOps
              [.obj [("op", .str "ArrayAdd"), ("path", .str "/a/5"), ("value", .boolean true)]]
              { retStatus := 200, patchFailed := false, message := "",
                docJson := (document.Document.mk "dc1" (.obj [("a", .arr [.boolean false])])
                  ⟨0, "u", 0, "u"⟩).data }).message = "" then "patch applied"
            else (handler.applyPatchOps
              [.obj [("op", .str "ArrayAdd"), ("path", .str "/a/5"), ("value", .boolean true)]]
              { retStatus := 200, patchFailed := false, message := "",
                docJson := (document.Document.mk "dc1" (.obj [("a", .arr [.boolean false])])
                  ⟨0, "u", 0, "u"⟩).data }).message),
        doc := document.Document.mk "dc1" (.obj [("a", .arr [.boolean false])])
          ⟨0, "u", 0, "u"⟩ } := by
  have hpv : patchvisitors.PatchVisitor.accept
      (.obj [("op", .str "ArrayAdd"), ("path", .str "/a/5"), ("value", .boolean true)]) =
      .ok { op := "ArrayAdd", path := "/a/5", value := .boolean true } := rfl
  have hps : patchvisitors.handlePathStart
      (patchvisitors.NewDocVisitor "ArrayAdd" "/a/5" (.boolean true)) =
      .ok ({ op := "ArrayAdd", path := "/a/5", value := .boolean true, first := false },
        ["a", "5"]) := rfl
  have hps2 : patchvisitors.handlePathStart
      { op := "ArrayAdd", path := "5", value := jsondata.JSONValue.boolean true,
        first := false } =
      .ok ({ op := "ArrayAdd", path := "5", value := .boolean true, first := false },
        ["5"]) := rfl
  have hj1 : patchvisitors.goJoin ["5"] = "5" := rfl
  have hu : patchvisitors.unescapeSegment "a" = "a" := rfl
  have ha : patchvisitors.goAtoi "5" = some 5 := rfl
  have hvisit : (patchvisitors.NewDocVisitor "ArrayAdd" "/a/5" (.boolean true)).accept
      (.obj [("a", .arr [.boolean false])]) =
      .error "error applying patches: index exceeds array length" := by
    simp [patchvisitors.DocVisitor.accept, patchvisitors.DocVisitor.Map, hps, hps2,
      patchvisitors.mapAcceptNextPath, patchvisitors.mapSearch, hu, hj1,
      patchvisitors.DocVisitor.Slice, patchvisitors.sliceAcceptNextPath, ha]
  refine ⟨rfl, ?_, ?_, patch_apply_failure_leaves_document "test" 9 (fun _ => true)
    "/v1/db1/dc1" _ _ _ rfl ?_ ?_⟩ <;>
    simp [handler.applyPatchOps, hpv, hvisit]

/-- C8 counterexample: the claim says the `Location` header of a successful
POST is set to the same URI as the body (request path with the generated
name appended).  The handler writes `Location: r.URL.Path` — the request
path without the generated name — while only the body URI carries it. -/
theorem post_location_header_cex :
    handler.post [("db1", .mk "db1" [])]
        { path := "/v1/db1/", contentType := "application/json", authOk := true,
          username := "test" } (.ok ()) ["123"] =
      some { status := 201, body := .uriBody "/v1/db1/123", location := some "/v1/db1/" } ∧
    (some "/v1/db1/" : Option String) ≠ some "/v1/db1/123" := by
  exact ⟨rfl, by decide⟩

/-- C8 amended: every successful POST (status 201) answers with body
`{"uri": u}` where `u` is the request path with the generated document name
appended, but the `Location` header is set to the bare request path, not to
`u`. -/
theorem post_success_response_amended (dbIndex : List (String × handler.HCollection))
    (r : handler.PostRequest) (bodyCheck : Except String Unit) (genNames : List String)
    (resp : handler.PostResponse)
    (h : handler.post dbIndex r bodyCheck genNames = some resp)
    (hs : resp.status = 201) :
    ∃ docName, resp.body = .uriBody (r.path ++ docName) ∧ resp.location = some r.path := by
  unfold handler.post at h
  repeat' split at h
  all_goals first
    | exact Option.noConfusion h
    | (simp only [Option.some.injEq] at h; subst h; exact ⟨_, rfl, rfl⟩)
    | (simp only [Option.some.injEq] at h; subst h; simp at hs)

/-- C8 witness: the amended theorem at the concrete one-database state. -/
theorem post_success_response_amended_witness :
    handler.post [("db1", .mk "db1" [])]
        { path := "/v1/db1/", contentType := "application/json", authOk := true,
          username := "test" } (.ok ()) ["123"] =
      some { status := 201, body := .uriBody "/v1/db1/123", location := some "/v1/db1/" } ∧
    ({ status := 201, body := .uriBody "/v1/db1/123",
        location := some "/v1/db1/" } : handler.PostResponse).status = 201 ∧
    ∃ docName,
      ({ status := 201, body := .uriBody "/v1/db1/123",
          location := some "/v1/db1/" } : handler.PostResponse).body =
        .uriBody ("/v1/db1/" ++ docName) ∧
      ({ status := 201, body := .uriBody "/v1/db1/123",
          location := some "/v1/db1/" } : handler.PostResponse).location =
        some "/v1/db1/" :=
  ⟨rfl, rfl,
    post_success_response_amended [("db1", .mk "db1" [])]
      { path := "/v1/db1/", contentType := "application/json", authOk := true,
        username := "test" } (.ok ()) ["123"]
      { status := 201, body := .uriBody "/v1/db1/123", location := some "/v1/db1/" }
      rfl rfl⟩
